import Mathlib

/-!
Verification development for the CaleShift shift-table parser
(app/utils/image_parser.py).

The Python module is shallowly embedded below.  Lines of OCR text are
modelled as Lean strings (lists of Unicode code points, matching Python
string semantics).  Python regular-expression matches used by the source
are deterministic on the character classes involved (digits, whitespace
and the anchor characters are pairwise disjoint), so each of the three
patterns is embedded as a first-order recursive function.

Python specifics reflected in the model:
  - str.strip() removes the Unicode whitespace code points; isPySpace
    lists that set (the CPython table).
  - the regex class backslash-d matches Unicode decimal digits; the model
    covers the ASCII and fullwidth ranges, the decimal digits that occur
    in this (Japanese OCR) domain.
  - pydantic wraps a validator ValueError into a ValidationError, which is
    itself a ValueError, so the try/except ValueError blocks of the source
    catch every validation failure; a failed construction is modelled by
    mkShiftInfo returning none.
  - the date field is always passed as an already-constructed date value
    (table_date), on which the date validator is the identity, so the
    constructor only runs the two time validators.
-/

namespace CaleShift

/-- Unicode whitespace as used by Python str.strip and the regex class
backslash-s (the CPython whitespace table). -/
def isPySpace (c : Char) : Bool :=
  let n := c.toNat
  (9 ≤ n && n ≤ 13) || (28 ≤ n && n ≤ 32) || n == 0x85 || n == 0xA0 ||
  n == 0x1680 || (0x2000 ≤ n && n ≤ 0x200A) || n == 0x2028 || n == 0x2029 ||
  n == 0x202F || n == 0x205F || n == 0x3000

/-- Decimal digits matched by the regex class backslash-d: ASCII 0-9 and
the fullwidth digits U+FF10 to U+FF19 (the decimal digits occurring in this
domain). -/
def isPyDigit (c : Char) : Bool :=
  let n := c.toNat
  (48 ≤ n && n ≤ 57) || (0xFF10 ≤ n && n ≤ 0xFF19)

/-- Numeric value of a digit accepted by isPyDigit, as used by int(). -/
def digitVal (c : Char) : Nat :=
  if 0xFF10 ≤ c.toNat then c.toNat - 0xFF10 else c.toNat - 48

/-- int() on a digit string. -/
def numOf (ds : List Char) : Nat :=
  ds.foldl (fun n c => 10 * n + digitVal c) 0

/-- str.strip() on a character list. -/
def pyStripL (cs : List Char) : List Char :=
  ((cs.dropWhile isPySpace).reverse.dropWhile isPySpace).reverse

/-- str.strip() on a string. -/
def pyStrip (s : String) : String :=
  String.mk (pyStripL s.toList)

/-- str.replace(" ", ""): delete every ASCII space. -/
def stripSpaces (s : String) : String :=
  String.mk (s.toList.filter (fun c => c ≠ ' '))

/-- needle.isPrefixOf hay on character lists (Boolean). -/
def listPrefixOf : List Char → List Char → Bool
  | [], _ => true
  | _ :: _, [] => false
  | a :: as, b :: bs => a == b && listPrefixOf as bs

/-- Python substring containment (needle in hay). -/
def listInfix (needle : List Char) : List Char → Bool
  | [] => needle.isEmpty
  | c :: cs => listPrefixOf needle (c :: cs) || listInfix needle cs

/-- Python substring containment on strings. -/
def containsSub (needle hay : String) : Bool :=
  listInfix needle.toList hay.toList

/-! ## Calendar dates and times (datetime.date / datetime.time) -/

structure Date where
  year : Nat
  month : Nat
  day : Nat
deriving Repr, DecidableEq

def isLeap (y : Nat) : Bool :=
  (y % 4 == 0 && y % 100 != 0) || y % 400 == 0

def daysInMonth (y m : Nat) : Nat :=
  if m == 2 then (if isLeap y then 29 else 28)
  else if m == 4 || m == 6 || m == 9 || m == 11 then 30
  else 31

/-- datetime.date(y, m, d): some date on valid arguments, none when the
constructor would raise ValueError. -/
def mkDate? (y m d : Nat) : Option Date :=
  if 1 ≤ y && y ≤ 9999 && 1 ≤ m && m ≤ 12 && 1 ≤ d && d ≤ daysInMonth y m then
    some ⟨y, m, d⟩
  else none

structure Time where
  hour : Nat
  minute : Nat
deriving Repr, DecidableEq

/-- datetime.time(h, m): some time on valid arguments, none when the
constructor would raise ValueError. -/
def mkTime? (h m : Nat) : Option Time :=
  if h ≤ 23 && m ≤ 59 then some ⟨h, m⟩ else none

/-! ## Token classifiers (image_parser.py lines 66-81) -/

/-- Character ranges of the fullmatch character class in is_likely_name:
U+3000-303F, U+3040-309F, U+30A0-30FF, U+FF00-FFEF, U+4E00-9FAF. -/
def isWideChar (c : Char) : Bool :=
  let n := c.toNat
  (0x3000 ≤ n && n ≤ 0x303F) || (0x3040 ≤ n && n ≤ 0x309F) ||
  (0x30A0 ≤ n && n ≤ 0x30FF) || (0xFF00 ≤ n && n ≤ 0xFFEF) ||
  (0x4E00 ≤ n && n ≤ 0x9FAF)

/-- is_likely_name: length at least 2, no decimal digit, no ASCII colon,
neither the month nor the day kanji, and every character in the wide
ranges (the one-or-more quantifier of the fullmatch is implied by the
length bound). -/
def is_likely_name (text : String) : Bool :=
  let cs := text.toList
  decide (2 ≤ cs.length) && !cs.any isPyDigit && !cs.contains ':' &&
  !cs.contains '月' && !cs.contains '日' && cs.all isWideChar

/-- is_role: substring match against the fixed keyword list. -/
def is_role (text : String) : Bool :=
  containsSub "ホール" text || containsSub "フロント" text

/-- Fullmatch of the pattern digit{1,2} space* colon space* digit{2}
(is_time_str, before stripping).  The digit, whitespace and colon classes
are disjoint, so the greedy match is deterministic: the leading digit run
must have length 1 or 2 and the run after the colon must be exactly the
two final digits. -/
def timeSepMatch (cs : List Char) : Bool :=
  let d1 := cs.takeWhile isPyDigit
  let r := (cs.dropWhile isPyDigit).dropWhile isPySpace
  (decide (1 ≤ d1.length) && decide (d1.length ≤ 2)) &&
  match r with
  | ':' :: r2 =>
    let r3 := r2.dropWhile isPySpace
    decide (r3.length = 2) && r3.all isPyDigit
  | _ => false

/-- is_time_str: fullmatch of digit{1,2} space* colon space* digit{2}
against the stripped text. -/
def is_time_str (text : String) : Bool :=
  timeSepMatch (pyStripL text.toList)

/-! ## The time field validator (ShiftInfo.parse_time_str, lines 42-64) -/

/-- Fullmatch of the pattern group(digit{1,2}) colon group(digit{2}),
returning the two captured integers. -/
def timeFullMatch (cs : List Char) : Option (Nat × Nat) :=
  let d1 := cs.takeWhile isPyDigit
  let r := cs.dropWhile isPyDigit
  if decide (1 ≤ d1.length) && decide (d1.length ≤ 2) then
    match r with
    | ':' :: r2 =>
      if decide (r2.length = 2) && r2.all isPyDigit then
        some (numOf d1, numOf r2)
      else none
    | _ => none
  else none

/-- ShiftInfo.parse_time_str on a string value: ok none for the empty or
holiday string, ok (some t) for a validly parsed time (with the 24:00 to
00:00 normalization), error when the validator raises ValueError.  The
lower() call of the source is the identity on the holiday keyword, and no
cased character lowercases into it. -/
def parse_time_str (value : String) : Except String (Option Time) :=
  let v := pyStrip value
  if v = "" then Except.ok none
  else if v = "休み" then Except.ok none
  else
    match timeFullMatch v.toList with
    | some (h, m) =>
      let h' := if h == 24 && m == 0 then 0 else h
      match mkTime? h' m with
      | some t => Except.ok (some t)
      | none => Except.error "Invalid time"
    | none => Except.error "Unsupported time format"

/-! ## Output records (ShiftInfo, lines 10-21) -/

structure ShiftInfo where
  date : Date
  start_time : Option Time := none
  end_time : Option Time := none
  name : Option String := none
  role : Option String := none
  memo : Option String := none
  is_holiday : Bool := false
deriving Repr, DecidableEq

/-- The in-progress record dictionary current_record.  A key that was
never assigned is none; is_holiday is only ever assigned True by the
source, so key presence coincides with the value true. -/
structure Rec where
  name : Option String := none
  role : Option String := none
  start_time : Option String := none
  end_time : Option String := none
  is_holiday : Bool := false
deriving Repr, DecidableEq

def Rec.empty : Rec := {}

/-- Python dict truthiness of current_record: at least one key present. -/
def Rec.nonempty (r : Rec) : Bool :=
  r.name.isSome || r.role.isSome || r.start_time.isSome ||
  r.end_time.isSome || r.is_holiday

/-- Validator on an optional raw time string field. -/
def parseOptTime : Option String → Except String (Option Time)
  | none => Except.ok none
  | some s => parse_time_str s

/-- ShiftInfo(date=table_date, **current_record): pydantic runs the two
time validators; any ValueError makes the whole construction fail (none).
The memo key is never present in current_record. -/
def mkShiftInfo (d : Date) (r : Rec) : Option ShiftInfo :=
  match parseOptTime r.start_time, parseOptTime r.end_time with
  | Except.ok st, Except.ok et =>
    some ⟨d, st, et, r.name, r.role, none, r.is_holiday⟩
  | _, _ => none

/-! ## Date resolution (parse_shift_text_to_structured_data, lines 90-110) -/

/-- Attempt of the search pattern group(digit{1,2}) space* month-kanji
space* group(digit{1,2}) space* day-kanji at the head of cs.  Digits,
whitespace and the two kanji are pairwise disjoint classes, so the greedy
quantifiers are deterministic: each digit run must have length 1 or 2. -/
def matchDateAt (cs : List Char) : Option (Nat × Nat) :=
  let d1 := cs.takeWhile isPyDigit
  if decide (1 ≤ d1.length) && decide (d1.length ≤ 2) then
    match (cs.dropWhile isPyDigit).dropWhile isPySpace with
    | '月' :: r2 =>
      let r3 := r2.dropWhile isPySpace
      let d2 := r3.takeWhile isPyDigit
      if decide (1 ≤ d2.length) && decide (d2.length ≤ 2) then
        match ((r3.dropWhile isPyDigit).dropWhile isPySpace) with
        | '日' :: _ => some (numOf d1, numOf d2)
        | _ => none
      else none
    | _ => none
  else none

/-- re.search of the date-header pattern: leftmost match wins. -/
def searchDate : List Char → Option (Nat × Nat)
  | [] => none
  | c :: cs =>
    match matchDateAt (c :: cs) with
    | some md => some md
    | none => searchDate cs

/-- One line of the date-extraction loop: the first regex match of the
line, turned into a date of the current year, or none (an invalid date
makes the loop move on to the next line). -/
def dateLineValid (year : Nat) (l : String) : Option Date :=
  match searchDate l.toList with
  | some (m, d) => mkDate? year m d
  | none => none

/-- The date-extraction loop over all lines: first line whose first match
yields a calendar-valid date of the current year. -/
def resolveTableDate (year : Nat) : List String → Option Date
  | [] => none
  | l :: ls =>
    match dateLineValid year l with
    | some dt => some dt
    | none => resolveTableDate year ls

/-! ## The record assembler (lines 112-312) -/

inductive Expect where
  | name
  | role
  | start_time
  | end_time
deriving Repr, DecidableEq

structure PState where
  shifts : List ShiftInfo
  cur : Rec
  expecting : Expect
deriving Repr, DecidableEq

/-- Append the candidate record if its construction validates, else keep
the list (the try/except ValueError pattern around ShiftInfo(...)). -/
def emit (d : Date) (shifts : List ShiftInfo) (r : Rec) : List ShiftInfo :=
  shifts ++ (mkShiftInfo d r).toList

/-- Lines 123 and 141: header keywords and the holiday keywords. -/
def headerSkip (l : String) : Bool :=
  containsSub "シフト表" l || containsSub "区別" l || containsSub "氏名" l ||
  containsSub "担当" l || containsSub "開始" l || containsSub "終了" l

/-- Line 137: fullmatch of digit{1,2} (a bare row number). -/
def isRowNum (l : String) : Bool :=
  let cs := l.toList
  decide (1 ≤ cs.length) && decide (cs.length ≤ 2) && cs.all isPyDigit

def is_line_holiday (l : String) : Bool :=
  containsSub "休み" l || containsSub "休業" l

/-- Name of the last parsed shift (guarded by the emptiness test before
its use, mirroring parsed_shifts[-1]). -/
def lastNameOf (shifts : List ShiftInfo) : Option String :=
  match shifts.getLast? with
  | some sh => sh.name
  | none => none

/-- The expecting_next dispatch (lines 143-279). -/
def dispatch (d : Date) (s : PState) (l : String) : PState :=
  let hol := is_line_holiday l
  match s.expecting with
  | Expect.name =>
    if is_likely_name l then
      { s with
          cur := { s.cur with
                     name := some l
                     is_holiday := s.cur.is_holiday || hol }
          expecting := Expect.role }
    else if is_role l then
      { s with cur := { s.cur with role := some l },
               expecting := Expect.start_time }
    else if is_time_str l then
      { s with cur := { s.cur with start_time := some (stripSpaces l) },
               expecting := Expect.end_time }
    else s
  | Expect.role =>
    if is_role l then
      { s with cur := { s.cur with role := some l },
               expecting := Expect.start_time }
    else if is_time_str l then
      { s with cur := { s.cur with start_time := some (stripSpaces l) },
               expecting := Expect.end_time }
    else if is_likely_name l then
      if s.cur.nonempty && s.cur.name.isSome then
        { s with cur := { Rec.empty with name := some l },
                 expecting := Expect.role }
      else
        { s with cur := { s.cur with name := some l },
                 expecting := Expect.role }
    else
      { s with expecting := Expect.start_time }
  | Expect.start_time =>
    if is_time_str l then
      { s with cur := { s.cur with start_time := some (stripSpaces l) },
               expecting := Expect.end_time }
    else if is_likely_name l then
      if s.cur.name.isSome && s.cur.start_time.isNone && !s.cur.is_holiday then
        { s with cur := { Rec.empty with name := some l },
                 expecting := Expect.role }
      else if s.cur.nonempty && (s.cur.start_time.isSome || s.cur.is_holiday) then
        { shifts := emit d s.shifts s.cur,
          cur := { Rec.empty with name := some l },
          expecting := Expect.role }
      else
        { s with cur := { Rec.empty with name := some l },
                 expecting := Expect.role }
    else
      if s.cur.name.isSome && s.cur.start_time.isNone then
        if hol && !s.cur.is_holiday then
          { shifts := emit d s.shifts { s.cur with is_holiday := true },
            cur := Rec.empty,
            expecting := Expect.name }
        else s
      else s
  | Expect.end_time =>
    if is_time_str l then
      { shifts := emit d s.shifts { s.cur with end_time := some (stripSpaces l) },
        cur := Rec.empty,
        expecting := Expect.name }
    else if is_likely_name l || is_role l then
      let shifts' := if s.cur.nonempty && s.cur.start_time.isSome then
                       emit d s.shifts s.cur
                     else s.shifts
      if is_likely_name l then
        { shifts := shifts',
          cur := { Rec.empty with name := some l },
          expecting := Expect.role }
      else
        { shifts := shifts',
          cur := { Rec.empty with role := some l },
          expecting := Expect.start_time }
    else
      { shifts := if s.cur.nonempty && s.cur.start_time.isSome then
                    emit d s.shifts s.cur
                  else s.shifts,
        cur := Rec.empty,
        expecting := Expect.name }

/-- The trailing holiday check after each dispatched line (lines 281-291). -/
def holidayBlock (d : Date) (s : PState) : PState :=
  if s.cur.is_holiday && s.cur.name.isSome &&
     (decide (s.expecting ≠ Expect.name) || s.shifts.isEmpty ||
      decide (lastNameOf s.shifts ≠ s.cur.name)) then
    { shifts := emit d s.shifts s.cur, cur := Rec.empty, expecting := Expect.name }
  else s

/-- Processing of one line of the assembly loop: header/title skip with
forced flush (lines 122-134), row-number skip (lines 136-139), then the
dispatch and the holiday check. -/
def processLine (d : Date) (s : PState) (l : String) : PState :=
  if headerSkip l then
    if s.cur.nonempty && s.cur.start_time.isSome then
      { shifts := emit d s.shifts s.cur, cur := Rec.empty, expecting := Expect.name }
    else s
  else if isRowNum l then s
  else holidayBlock d (dispatch d s l)

def runLines (d : Date) (s : PState) (ls : List String) : PState :=
  ls.foldl (processLine d) s

/-- Leftover handling after the loop (lines 294-306); the constructed
shift is re-checked before being kept. -/
def finalize (d : Date) (s : PState) : List ShiftInfo :=
  if s.cur.nonempty && (s.cur.start_time.isSome || s.cur.is_holiday) then
    match mkShiftInfo d s.cur with
    | some sh =>
      if sh.start_time.isSome || sh.is_holiday then s.shifts ++ [sh]
      else s.shifts
    | none => s.shifts
  else s.shifts

/-! ## Splitting the input text into stripped nonempty lines (line 85) -/

/-- Python text.split with separator newline. -/
def splitNl : List Char → List (List Char)
  | [] => [[]]
  | c :: cs =>
    if c = '\n' then [] :: splitNl cs
    else
      match splitNl cs with
      | [] => [[c]]
      | p :: ps => (c :: p) :: ps

/-- Lines of the input: split on newline, strip, drop empties. -/
def toLines (text : String) : List String :=
  (((splitNl text.toList).map pyStripL).filter (fun cs => cs ≠ [])).map String.mk

/-- The parser body after line splitting. -/
def parseLines (year : Nat) (lines : List String) : List ShiftInfo :=
  match resolveTableDate year lines with
  | none => []
  | some d => finalize d (runLines d { shifts := [], cur := Rec.empty, expecting := Expect.name } lines)

/-- parse_shift_text_to_structured_data, with datetime.now().year passed
explicitly. -/
def parse_shift_text_to_structured_data (year : Nat) (text : String) : List ShiftInfo :=
  parseLines year (toLines text)

/-- Newline join, the converse of the line splitting, used to build input
texts from line lists in the statements below. -/
def joinNl : List (List Char) → List Char
  | [] => []
  | [cs] => cs
  | cs :: rest => cs ++ '\n' :: joinNl rest

def joinLines (ls : List String) : String :=
  String.mk (joinNl (ls.map String.toList))

/-- A line as produced by the splitting stage: nonempty, already stripped,
and containing no newline. -/
def CleanLine (l : String) : Prop :=
  l ≠ "" ∧ pyStripL l.toList = l.toList ∧ '\n' ∉ l.toList

instance : DecidablePred CleanLine := fun l => by
  unfold CleanLine; infer_instance

/-! ## Helper lemmas -/

lemma mk_eq_iff {cs : List Char} {l : String} : String.mk cs = l ↔ cs = l.toList :=
  ⟨fun h => congrArg String.toList h, fun h => congrArg String.mk h⟩

lemma pyStrip_toList (s : String) : (pyStrip s).toList = pyStripL s.toList := rfl

lemma timeFullMatch_nil : timeFullMatch [] = none := rfl

lemma timeFullMatch_holiday : timeFullMatch ['休', 'み'] = none := rfl

lemma resolveTableDate_eq_none {year : Nat} {ls : List String}
    (h : ∀ l ∈ ls, dateLineValid year l = none) :
    resolveTableDate year ls = none := by
  induction ls with
  | nil => rfl
  | cons l ls ih =>
    simp only [resolveTableDate, h l (List.mem_cons_self l ls)]
    exact ih fun x hx => h x (List.mem_cons_of_mem _ hx)

lemma resolveTableDate_cons_some {year : Nat} {dl : String} {d : Date}
    (h : dateLineValid year dl = some d) (ls : List String) :
    resolveTableDate year (dl :: ls) = some d := by
  simp only [resolveTableDate, h]

lemma nonempty_of_start_isSome {r : Rec} (h : r.start_time.isSome = true) :
    r.nonempty = true := by
  simp [Rec.nonempty, h]

/-! ## C2: unanchored input yields the empty list -/

/-- C2.  If on every line the date-header search either finds no match or
finds month/day values that are not calendar-valid (that is, the per-line
resolver step dateLineValid yields none on every line), then the parser
returns the empty list for the whole input, signalling no error. -/
theorem c2_unanchored (year : Nat) (text : String)
    (h : ∀ l ∈ toLines text, dateLineValid year l = none) :
    parse_shift_text_to_structured_data year text = [] := by
  unfold parse_shift_text_to_structured_data parseLines
  rw [resolveTableDate_eq_none h]

/-- C2 witness: an input whose first candidate line has no date pattern,
whose second has a pattern with an invalid month and whose third has a
calendar-invalid day, yields the empty list. -/
theorem c2_unanchored_witness :
    parse_shift_text_to_structured_data 2026 "シフト表\n13月99日\n2月30日\n渡邊遼\nホール\n10:00\n16:00" = [] :=
  c2_unanchored 2026 "シフト表\n13月99日\n2月30日\n渡邊遼\nホール\n10:00\n16:00" (by decide)

/-! ## C4: the time validator -/

/-- C4 counterexample.  The string 25:00 is of the two-digit-hour HH:MM
shape (the validator regex captures hour 25 and minute 0, and the
classifier is_time_str accepts the line), yet the validator raises and
the value is rejected, so the validator does not accept exactly the
strings of the form H:MM or HH:MM. -/
theorem c4_counterexample :
    timeFullMatch (pyStripL "25:00".toList) = some (25, 0) ∧
    is_time_str "25:00" = true ∧
    parse_time_str "25:00" = Except.error "Invalid time" := by
  refine ⟨by decide, by decide, rfl⟩

/-- C4 amended.  The validator accepts a time value exactly for strings
whose stripped form matches the H:MM or HH:MM pattern AND whose captured
values are a valid time after the 24:00 to 00:00 normalization; in
particular 24:00 parses to 00:00 and 9:5 (one-digit minute) fails
validation, so a candidate record carrying either raw string behind a
failing parse is dropped by the guarded constructor. -/
theorem c4_amended :
    (∀ (s : String) (t : Time),
        parse_time_str s = Except.ok (some t) ↔
          ∃ hh mm, timeFullMatch (pyStripL s.toList) = some (hh, mm) ∧
            ((hh = 24 ∧ mm = 0 ∧ t = ⟨0, 0⟩) ∨
             (¬(hh = 24 ∧ mm = 0) ∧ hh ≤ 23 ∧ mm ≤ 59 ∧ t = ⟨hh, mm⟩))) ∧
    parse_time_str "24:00" = Except.ok (some ⟨0, 0⟩) ∧
    parse_time_str "9:5" = Except.error "Unsupported time format" := by
  refine ⟨fun s t => ?_, rfl, rfl⟩
  constructor
  · intro h
    simp only [parse_time_str] at h
    split_ifs at h with h0 h1
    · exact absurd h (by simp)
    · exact absurd h (by simp)
    · rcases hm : timeFullMatch (pyStrip s).toList with _ | ⟨hh, mm⟩
      · rw [hm] at h
        exact absurd h (by simp)
      · rw [hm] at h
        refine ⟨hh, mm, hm, ?_⟩
        by_cases h24 : (hh == 24 && mm == 0) = true
        · obtain ⟨h24a, h24b⟩ : hh = 24 ∧ mm = 0 := by
            simpa [Bool.and_eq_true, beq_iff_eq] using h24
          subst h24a; subst h24b
          simp only [h24, if_true] at h
          rw [show mkTime? 0 0 = some ⟨0, 0⟩ from rfl] at h
          simp only [Except.ok.injEq, Option.some.injEq] at h
          exact Or.inl ⟨rfl, rfl, h.symm⟩
        · rw [Bool.not_eq_true] at h24
          simp only [h24, Bool.false_eq_true, if_false] at h
          unfold mkTime? at h
          split_ifs at h with hrange
          · obtain ⟨hhle, hmle⟩ : hh ≤ 23 ∧ mm ≤ 59 := by
              simpa using hrange
            simp only [Except.ok.injEq, Option.some.injEq] at h
            refine Or.inr ⟨?_, hhle, hmle, h.symm⟩
            rintro ⟨rfl, rfl⟩
            simp at h24
  · rintro ⟨hh, mm, hmatch, hdisj⟩
    have hne : pyStrip s ≠ "" := by
      intro h0
      have : pyStripL s.toList = [] := mk_eq_iff.mp h0
      rw [this, timeFullMatch_nil] at hmatch
      cases hmatch
    have hnh : pyStrip s ≠ "休み" := by
      intro h0
      have hls : pyStripL s.toList = ['休', 'み'] := by
        have := mk_eq_iff.mp h0
        simpa using this
      rw [hls, timeFullMatch_holiday] at hmatch
      cases hmatch
    simp only [parse_time_str]
    rw [if_neg hne, if_neg hnh]
    rw [show timeFullMatch (pyStrip s).toList = some (hh, mm) from hmatch]
    rcases hdisj with ⟨rfl, rfl, rfl⟩ | ⟨hn24, hhle, hmle, rfl⟩
    · rfl
    · have hb : (hh == 24 && mm == 0) = false := by
        rw [Bool.eq_false_iff]
        intro hx
        exact hn24 (by simpa [Bool.and_eq_true, beq_iff_eq] using hx)
      simp only [hb, Bool.false_eq_true, if_false]
      unfold mkTime?
      rw [if_pos (by simp [hhle, hmle])]

/-! ## C6: header/title lines versus bare row numbers -/

/-- C6 counterexample.  A bare row-number line (7) between a start time
and an end time does NOT flush the in-progress record: the whole input
parses to one single complete record, whereas a flush boundary at the
row-number line would have emitted a record without end time and started
a second one.  At the line 7 the assembler holds a record with a start
time, yet nothing is emitted and nothing is reset. -/
theorem c6_counterexample :
    parse_shift_text_to_structured_data 2026 "5月27日\n渡邊遼\nホール\n10:00\n7\n16:00" =
      [⟨⟨2026, 5, 27⟩, some ⟨10, 0⟩, some ⟨16, 0⟩, some "渡邊遼", some "ホール", none, false⟩] ∧
    isRowNum "7" = true ∧
    processLine ⟨2026, 5, 27⟩
        ⟨[], ⟨some "渡邊遼", some "ホール", some "10:00", none, false⟩, Expect.end_time⟩ "7" =
      ⟨[], ⟨some "渡邊遼", some "ホール", some "10:00", none, false⟩, Expect.end_time⟩ := by
  refine ⟨by decide, by decide, by decide⟩

/-- C6 amended.  Header/title-keyword lines are discarded and act as a
flush boundary: with a start time present the in-progress record is
flushed (emitted if it validates) and the assembler resets to expecting a
name, and without one the state is left unchanged.  Bare 1-2 digit
row-number lines are discarded with NO flush: the assembler state is left
entirely unchanged, whatever the in-progress record holds. -/
theorem c6_amended (d : Date) (s : PState) (l : String) :
    (headerSkip l = true →
       ((s.cur.start_time.isSome = true →
           processLine d s l = ⟨emit d s.shifts s.cur, Rec.empty, Expect.name⟩) ∧
        (s.cur.start_time = none → processLine d s l = s))) ∧
    (headerSkip l = false → isRowNum l = true → processLine d s l = s) := by
  refine ⟨fun hh => ⟨fun hst => ?_, fun hst => ?_⟩, fun hh hr => ?_⟩
  · simp [processLine, hh, nonempty_of_start_isSome hst, hst]
  · simp [processLine, hh, hst]
  · simp [processLine, hh, hr]

/-- C6 amended witness: a header line flushes a record holding a start
time, and the row-number line 7 leaves the same state untouched. -/
theorem c6_amended_witness :
    (processLine ⟨2026, 5, 27⟩
        ⟨[], ⟨some "渡邊遼", some "ホール", some "10:00", none, false⟩, Expect.end_time⟩ "氏名" =
      ⟨emit ⟨2026, 5, 27⟩ [] ⟨some "渡邊遼", some "ホール", some "10:00", none, false⟩,
       Rec.empty, Expect.name⟩) ∧
    (processLine ⟨2026, 5, 27⟩
        ⟨[], ⟨some "渡邊遼", some "ホール", some "10:00", none, false⟩, Expect.end_time⟩ "7" =
      ⟨[], ⟨some "渡邊遼", some "ホール", some "10:00", none, false⟩, Expect.end_time⟩) :=
  ⟨((c6_amended ⟨2026, 5, 27⟩
      ⟨[], ⟨some "渡邊遼", some "ホール", some "10:00", none, false⟩, Expect.end_time⟩ "氏名").1
      (by decide)).1 (by decide),
   (c6_amended ⟨2026, 5, 27⟩
      ⟨[], ⟨some "渡邊遼", some "ホール", some "10:00", none, false⟩, Expect.end_time⟩ "7").2
      (by decide) (by decide)⟩

/-! ## C7: flush and re-dispatch on unexpected data while expecting the end time -/

/-- C7.  While expecting an end time over a record whose start time raw
string parses to a time t, a non-time line that is name-like (or, failing
that, role-like) first causes the current record to be emitted with its
start time present and no end time, and the very same line is then stored
as the name (or role) of a fresh next record in the same step. -/
theorem c7_flush_and_redispatch (d : Date) (S : List ShiftInfo) (r : Rec)
    (l ts : String) (t : Time)
    (hstart : r.start_time = some ts) (hend : r.end_time = none)
    (hts : parse_time_str ts = Except.ok (some t))
    (hh : headerSkip l = false) (hrn : isRowNum l = false)
    (htl : is_time_str l = false) :
    (is_likely_name l = true →
       processLine d ⟨S, r, Expect.end_time⟩ l =
         ⟨S ++ [⟨d, some t, none, r.name, r.role, none, r.is_holiday⟩],
          { Rec.empty with name := some l }, Expect.role⟩) ∧
    (is_likely_name l = false → is_role l = true →
       processLine d ⟨S, r, Expect.end_time⟩ l =
         ⟨S ++ [⟨d, some t, none, r.name, r.role, none, r.is_holiday⟩],
          { Rec.empty with role := some l }, Expect.start_time⟩) := by
  have hmk : mkShiftInfo d r = some ⟨d, some t, none, r.name, r.role, none, r.is_holiday⟩ := by
    simp only [mkShiftInfo, parseOptTime, hstart, hend, hts]
  constructor
  · intro hn
    simp [processLine, hh, hrn, dispatch, htl, hn, holidayBlock, emit, hmk,
          nonempty_of_start_isSome (by rw [hstart]; rfl), hstart, Rec.empty]
  · intro hn hro
    simp [processLine, hh, hrn, dispatch, htl, hn, hro, holidayBlock, emit, hmk,
          nonempty_of_start_isSome (by rw [hstart]; rfl), hstart, Rec.empty]

/-- C7 witness at a concrete reachable state: start 10:00 without end
time, interrupted by a new name-like line. -/
theorem c7_witness :
    processLine ⟨2026, 5, 27⟩
        ⟨[], ⟨some "渡邊遼", some "ホール", some "10:00", none, false⟩, Expect.end_time⟩ "太田悠登" =
      ⟨[⟨⟨2026, 5, 27⟩, some ⟨10, 0⟩, none, some "渡邊遼", some "ホール", none, false⟩],
       { Rec.empty with name := some "太田悠登" }, Expect.role⟩ :=
  (c7_flush_and_redispatch ⟨2026, 5, 27⟩ []
      ⟨some "渡邊遼", some "ホール", some "10:00", none, false⟩ "太田悠登" "10:00" ⟨10, 0⟩
      rfl rfl rfl (by decide) (by decide) (by decide)).1 (by decide)

/-! ## C8: silent discard of a record without start time on a new name -/

/-- C8.  While expecting a role for an in-progress record that has a name,
a new name-like line makes the assembler discard the in-progress record
without emitting it (the output list is unchanged) and begin a fresh
record holding only the new name. -/
theorem c8_discard_on_new_name (d : Date) (S : List ShiftInfo) (r : Rec)
    (l nm : String) (hname : r.name = some nm)
    (hh : headerSkip l = false) (hrn : isRowNum l = false)
    (hro : is_role l = false) (htl : is_time_str l = false)
    (hn : is_likely_name l = true) :
    processLine d ⟨S, r, Expect.role⟩ l =
      ⟨S, { Rec.empty with name := some l }, Expect.role⟩ := by
  have hns : r.name.isSome = true := by rw [hname]; rfl
  have hne : r.nonempty = true := by simp [Rec.nonempty, hns]
  simp [processLine, hh, hrn, dispatch, hro, htl, hn, hns, hne, holidayBlock, Rec.empty]

/-- C8 witness: the record holding only the name 渡邊遼 is dropped when
the name 太田悠登 arrives while a role was expected. -/
theorem c8_witness :
    processLine ⟨2026, 5, 27⟩ ⟨[], ⟨some "渡邊遼", none, none, none, false⟩, Expect.role⟩ "太田悠登" =
      ⟨[], { Rec.empty with name := some "太田悠登" }, Expect.role⟩ :=
  c8_discard_on_new_name ⟨2026, 5, 27⟩ [] ⟨some "渡邊遼", none, none, none, false⟩
    "太田悠登" "渡邊遼" rfl (by decide) (by decide) (by decide) (by decide) (by decide)

/-! ## Emitted-record provenance: every output record comes from mkShiftInfo -/

lemma mkShiftInfo_fields {d : Date} {r : Rec} {sh : ShiftInfo}
    (h : mkShiftInfo d r = some sh) : sh.date = d ∧ sh.memo = none := by
  unfold mkShiftInfo at h
  split at h
  · simp only [Option.some.injEq] at h
    subst h
    exact ⟨rfl, rfl⟩
  · cases h

lemma mem_emit {d : Date} {S : List ShiftInfo} {r : Rec} {sh : ShiftInfo}
    (h : sh ∈ emit d S r) : sh ∈ S ∨ mkShiftInfo d r = some sh := by
  unfold emit at h
  rcases List.mem_append.1 h with h | h
  · exact Or.inl h
  · right
    cases hm : mkShiftInfo d r with
    | none => rw [hm] at h; cases h
    | some x =>
      rw [hm] at h
      simp only [Option.toList_some, List.mem_singleton] at h
      rw [h]

lemma mem_dispatch_shifts {d : Date} {s : PState} {l : String} {sh : ShiftInfo}
    (h : sh ∈ (dispatch d s l).shifts) :
    sh ∈ s.shifts ∨ ∃ r', mkShiftInfo d r' = some sh := by
  rcases s with ⟨S, r, e⟩
  cases e <;> simp only [dispatch] at h <;> split_ifs at h <;>
    first
      | exact Or.inl h
      | (rcases mem_emit h with h | h
         · exact Or.inl h
         · exact Or.inr ⟨_, h⟩)

lemma mem_holidayBlock_shifts {d : Date} {s : PState} {sh : ShiftInfo}
    (h : sh ∈ (holidayBlock d s).shifts) :
    sh ∈ s.shifts ∨ ∃ r', mkShiftInfo d r' = some sh := by
  unfold holidayBlock at h
  split_ifs at h
  · rcases mem_emit h with h | h
    · exact Or.inl h
    · exact Or.inr ⟨_, h⟩
  · exact Or.inl h

lemma mem_processLine_shifts {d : Date} {s : PState} {l : String} {sh : ShiftInfo}
    (h : sh ∈ (processLine d s l).shifts) :
    sh ∈ s.shifts ∨ ∃ r', mkShiftInfo d r' = some sh := by
  unfold processLine at h
  split_ifs at h
  · rcases mem_emit h with h | h
    · exact Or.inl h
    · exact Or.inr ⟨_, h⟩
  · exact Or.inl h
  · exact Or.inl h
  · rcases mem_holidayBlock_shifts h with h | h
    · exact mem_dispatch_shifts h
    · exact Or.inr h

lemma mem_runLines_shifts {d : Date} {ls : List String} {s : PState} {sh : ShiftInfo}
    (h : sh ∈ (runLines d s ls).shifts) :
    sh ∈ s.shifts ∨ ∃ r', mkShiftInfo d r' = some sh := by
  induction ls generalizing s with
  | nil => exact Or.inl h
  | cons l ls ih =>
    rcases ih (s := processLine d s l) h with h | h
    · exact mem_processLine_shifts h
    · exact Or.inr h

lemma mem_finalize {d : Date} {s : PState} {sh : ShiftInfo}
    (h : sh ∈ finalize d s) :
    sh ∈ s.shifts ∨ ∃ r', mkShiftInfo d r' = some sh := by
  unfold finalize at h
  by_cases hc : (s.cur.nonempty && (s.cur.start_time.isSome || s.cur.is_holiday)) = true
  · rw [if_pos hc] at h
    cases hm : mkShiftInfo d s.cur with
    | none => rw [hm] at h; exact Or.inl h
    | some x =>
      rw [hm] at h
      dsimp only at h
      split_ifs at h
      · rcases List.mem_append.1 h with h | h
        · exact Or.inl h
        · rw [List.mem_singleton.1 h]
          exact Or.inr ⟨_, hm⟩
      · exact Or.inl h
  · rw [if_neg hc] at h
    exact Or.inl h

lemma mem_parse_provenance {year : Nat} {text : String} {d : Date} {sh : ShiftInfo}
    (hres : resolveTableDate year (toLines text) = some d)
    (h : sh ∈ parse_shift_text_to_structured_data year text) :
    ∃ r', mkShiftInfo d r' = some sh := by
  unfold parse_shift_text_to_structured_data parseLines at h
  rw [hres] at h
  rcases mem_finalize h with h | h
  · rcases mem_runLines_shifts h with h | h
    · cases h
    · exact h
  · exact h

/-! ## C9: the single table date anchors every record, first match wins -/

/-- C9.  Every record emitted by the parser carries the table date that
the resolver extracted, and resolution only uses the first line whose
first pattern match is calendar-valid: extending the input with further
lines (date-like or not) after a resolving prefix leaves the resolved
table date unchanged, hence also the date on every emitted record. -/
theorem c9_first_date_anchors_records :
    (∀ (year : Nat) (text : String) (d : Date) (sh : ShiftInfo),
       resolveTableDate year (toLines text) = some d →
       sh ∈ parse_shift_text_to_structured_data year text → sh.date = d) ∧
    (∀ (year : Nat) (ls₁ ls₂ : List String) (d : Date),
       resolveTableDate year ls₁ = some d →
       resolveTableDate year (ls₁ ++ ls₂) = some d) := by
  constructor
  · intro year text d sh hres hmem
    obtain ⟨r', hr'⟩ := mem_parse_provenance hres hmem
    exact (mkShiftInfo_fields hr').1
  · intro year ls₁ ls₂ d hres
    induction ls₁ with
    | nil => cases hres
    | cons l ls ih =>
      simp only [resolveTableDate, List.cons_append] at hres ⊢
      cases hv : dateLineValid year l with
      | some dt => rw [hv] at hres; exact hres
      | none =>
        rw [hv] at hres
        exact ih hres

/-- C9 witness: on the concrete scenario input the single emitted record
carries the resolved date 2026-05-27, and appending a second date line
6月1日 leaves the resolved date of the line list unchanged. -/
theorem c9_witness :
    ((⟨⟨2026, 5, 27⟩, some ⟨10, 0⟩, some ⟨16, 0⟩, some "渡邊遼", some "ホール", none,
        false⟩ : ShiftInfo).date = ⟨2026, 5, 27⟩) ∧
    resolveTableDate 2026 (["5月27日", "渡邊遼", "ホール", "10:00", "16:00"] ++ ["6月1日"]) =
      some ⟨2026, 5, 27⟩ :=
  ⟨c9_first_date_anchors_records.1 2026 "5月27日\n渡邊遼\nホール\n10:00\n16:00" ⟨2026, 5, 27⟩
      _ (by decide) (by decide),
   c9_first_date_anchors_records.2 2026 ["5月27日", "渡邊遼", "ホール", "10:00", "16:00"]
      ["6月1日"] ⟨2026, 5, 27⟩ (by decide)⟩

/-! ## C10: the memo field is never populated -/

/-- C10.  No code path of the parser assigns the memo field: every record
returned by the parser has memo = none. -/
theorem c10_memo_always_none (year : Nat) (text : String) (sh : ShiftInfo)
    (h : sh ∈ parse_shift_text_to_structured_data year text) : sh.memo = none := by
  unfold parse_shift_text_to_structured_data parseLines at h
  cases hres : resolveTableDate year (toLines text) with
  | none => rw [hres] at h; cases h
  | some d =>
    rw [hres] at h
    rcases mem_finalize h with h' | h'
    · rcases mem_runLines_shifts h' with h'' | h''
      · cases h''
      · exact (mkShiftInfo_fields h''.choose_spec).2
    · exact (mkShiftInfo_fields h'.choose_spec).2

/-- C10 witness on the concrete scenario record. -/
theorem c10_witness :
    (⟨⟨2026, 5, 27⟩, some ⟨10, 0⟩, some ⟨16, 0⟩, some "渡邊遼", some "ホール", none,
       false⟩ : ShiftInfo).memo = none :=
  c10_memo_always_none 2026 "5月27日\n渡邊遼\nホール\n10:00\n16:00"
    ⟨⟨2026, 5, 27⟩, some ⟨10, 0⟩, some ⟨16, 0⟩, some "渡邊遼", some "ホール", none, false⟩
    (by decide)

/-! ## C3: validation failures are local -/

lemma runLines_nil (d : Date) (s : PState) : runLines d s [] = s := rfl

lemma runLines_cons (d : Date) (s : PState) (l : String) (ls : List String) :
    runLines d s (l :: ls) = runLines d (processLine d s l) ls := rfl

lemma runLines_append (d : Date) (s : PState) (xs ys : List String) :
    runLines d s (xs ++ ys) = runLines d (runLines d s xs) ys :=
  List.foldl_append _ _ _ _

lemma dispatch_localized (d : Date) (S : List ShiftInfo) (r : Rec) (e : Expect)
    (l : String) :
    dispatch d ⟨S, r, e⟩ l =
      ⟨S ++ (dispatch d ⟨[], r, e⟩ l).shifts,
       (dispatch d ⟨[], r, e⟩ l).cur,
       (dispatch d ⟨[], r, e⟩ l).expecting⟩ := by
  cases e <;> simp only [dispatch] <;> split_ifs <;> simp [emit, List.append_assoc]

lemma dispatch_inv_strong (d : Date) (s : PState) (l : String)
    (hInv : s.expecting = Expect.name → s.cur = Rec.empty) :
    (dispatch d s l).expecting = Expect.name → (dispatch d s l).cur = Rec.empty := by
  rcases s with ⟨S, r, e⟩
  cases e <;> simp only [dispatch] <;> split_ifs <;> intro hx <;>
    first
      | rfl
      | exact hx.elim
      | exact hInv rfl

lemma holidayBlock_localized (d : Date) (S T : List ShiftInfo) (r : Rec) (e : Expect)
    (hInv : e = Expect.name → r.is_holiday = false) :
    holidayBlock d ⟨S ++ T, r, e⟩ =
      ⟨S ++ (holidayBlock d ⟨T, r, e⟩).shifts,
       (holidayBlock d ⟨T, r, e⟩).cur,
       (holidayBlock d ⟨T, r, e⟩).expecting⟩ := by
  by_cases he : e = Expect.name
  · subst he
    simp [holidayBlock, hInv rfl]
  · by_cases hc : (r.is_holiday && r.name.isSome) = true
    · simp [holidayBlock, he, hc, emit, List.append_assoc]
    · simp [holidayBlock, he, hc]

lemma holidayBlock_inv (d : Date) (s : PState)
    (hInv : s.expecting = Expect.name → s.cur = Rec.empty) :
    (holidayBlock d s).expecting = Expect.name → (holidayBlock d s).cur = Rec.empty := by
  unfold holidayBlock
  split_ifs
  · intro _; rfl
  · exact hInv

lemma processLine_localized (d : Date) (S : List ShiftInfo) (r : Rec) (e : Expect)
    (l : String) (hInv : e = Expect.name → r = Rec.empty) :
    processLine d ⟨S, r, e⟩ l =
      ⟨S ++ (processLine d ⟨[], r, e⟩ l).shifts,
       (processLine d ⟨[], r, e⟩ l).cur,
       (processLine d ⟨[], r, e⟩ l).expecting⟩ := by
  by_cases hh : headerSkip l = true
  · by_cases hs : (Rec.nonempty r && r.start_time.isSome) = true
    · simp [processLine, hh, hs, emit]
    · simp [processLine, hh, hs]
  · by_cases hrn : isRowNum l = true
    · simp [processLine, hh, hrn]
    · rw [Bool.not_eq_true] at hh hrn
      simp only [processLine, hh, hrn, Bool.false_eq_true, if_false]
      rw [dispatch_localized]
      have hinv1 : (dispatch d ⟨[], r, e⟩ l).expecting = Expect.name →
          (dispatch d ⟨[], r, e⟩ l).cur.is_holiday = false := by
        intro hx
        rw [dispatch_inv_strong d ⟨[], r, e⟩ l hInv hx]
        rfl
      exact holidayBlock_localized d S (dispatch d ⟨[], r, e⟩ l).shifts
        (dispatch d ⟨[], r, e⟩ l).cur (dispatch d ⟨[], r, e⟩ l).expecting hinv1

lemma processLine_inv (d : Date) (s : PState) (l : String)
    (hInv : s.expecting = Expect.name → s.cur = Rec.empty) :
    (processLine d s l).expecting = Expect.name → (processLine d s l).cur = Rec.empty := by
  unfold processLine
  split_ifs
  · intro _; rfl
  · exact hInv
  · exact hInv
  · exact holidayBlock_inv d (dispatch d s l) (dispatch_inv_strong d s l hInv)

/-- C3.  The parser is total (a pure fold over the lines: every record
construction is guarded, a failed validation appends nothing), and a
validation failure is local: from any assembler state satisfying the
reachability invariant (expecting a name only with an empty in-progress
record), the records already emitted or dropped never influence the
processing of the remaining lines — the run from shift list S produces
exactly S followed by the records of the run from the empty list, with
the identical final in-progress record and identical expected field, so
dropping one candidate record leaves the parsing of the rest of the
input unchanged. -/
theorem c3_validation_failure_locality :
    ∀ (d : Date) (ls : List String) (S : List ShiftInfo) (r : Rec) (e : Expect),
      (e = Expect.name → r = Rec.empty) →
      runLines d ⟨S, r, e⟩ ls =
        ⟨S ++ (runLines d ⟨[], r, e⟩ ls).shifts,
         (runLines d ⟨[], r, e⟩ ls).cur,
         (runLines d ⟨[], r, e⟩ ls).expecting⟩ := by
  intro d ls
  induction ls with
  | nil =>
    intro S r e _
    simp [runLines]
  | cons l ls ih =>
    intro S r e hInv
    rw [runLines_cons, processLine_localized d S r e l hInv]
    have hInv' := processLine_inv d ⟨[], r, e⟩ l hInv
    rw [ih (S ++ (processLine d ⟨[], r, e⟩ l).shifts)
          (processLine d ⟨[], r, e⟩ l).cur (processLine d ⟨[], r, e⟩ l).expecting hInv']
    have hrhs : runLines d ⟨[], r, e⟩ (l :: ls) =
        runLines d ⟨(processLine d ⟨[], r, e⟩ l).shifts,
                    (processLine d ⟨[], r, e⟩ l).cur,
                    (processLine d ⟨[], r, e⟩ l).expecting⟩ ls := rfl
    rw [hrhs, ih (processLine d ⟨[], r, e⟩ l).shifts
          (processLine d ⟨[], r, e⟩ l).cur (processLine d ⟨[], r, e⟩ l).expecting hInv']
    simp [List.append_assoc]

/-- C3 witness: from the initial state carrying one already-emitted
record, processing two further lines appends exactly the records of the
run from the empty output list. -/
theorem c3_witness :
    runLines ⟨2026, 5, 27⟩
        ⟨[⟨⟨2026, 5, 27⟩, none, none, some "田中太郎", none, none, true⟩], Rec.empty, Expect.name⟩
        ["渡邊遼", "10:00"] =
      ⟨[⟨⟨2026, 5, 27⟩, none, none, some "田中太郎", none, none, true⟩] ++
         (runLines ⟨2026, 5, 27⟩ ⟨[], Rec.empty, Expect.name⟩ ["渡邊遼", "10:00"]).shifts,
       (runLines ⟨2026, 5, 27⟩ ⟨[], Rec.empty, Expect.name⟩ ["渡邊遼", "10:00"]).cur,
       (runLines ⟨2026, 5, 27⟩ ⟨[], Rec.empty, Expect.name⟩ ["渡邊遼", "10:00"]).expecting⟩ :=
  c3_validation_failure_locality ⟨2026, 5, 27⟩ ["渡邊遼", "10:00"]
    [⟨⟨2026, 5, 27⟩, none, none, some "田中太郎", none, none, true⟩] Rec.empty Expect.name
    (fun _ => rfl)

/-! ## Single-line step lemmas for well-formed record segments -/

/-- An unclassified line at the initial state (empty record, expecting a
name) leaves the state unchanged, whether or not it is skipped as
header/title or row number. -/
lemma step_inert_init (d : Date) (S : List ShiftInfo) (l : String)
    (hn : is_likely_name l = false) (hr : is_role l = false)
    (ht : is_time_str l = false) :
    processLine d ⟨S, Rec.empty, Expect.name⟩ l = ⟨S, Rec.empty, Expect.name⟩ := by
  by_cases hh : headerSkip l = true
  · simp [processLine, hh, Rec.empty, Rec.nonempty]
  · by_cases hrn : isRowNum l = true
    · simp [processLine, hh, hrn]
    · simp [processLine, hh, hrn, dispatch, hn, hr, ht, holidayBlock, Rec.empty]

/-- A noise line (header/title keyword or bare row number) leaves any
state without a pending start time unchanged. -/
lemma step_noise (d : Date) (s : PState) (l : String)
    (h : (headerSkip l || isRowNum l) = true) (hst : s.cur.start_time = none) :
    processLine d s l = s := by
  by_cases hh : headerSkip l = true
  · simp [processLine, hh, hst]
  · have hrn : isRowNum l = true := by simpa [hh] using h
    simp [processLine, hh, hrn]

/-- A run of noise lines leaves any state without a pending start time
unchanged. -/
lemma runNoise (d : Date) (s : PState) (ns : List String)
    (h : ∀ l ∈ ns, (headerSkip l || isRowNum l) = true)
    (hst : s.cur.start_time = none) :
    runLines d s ns = s := by
  induction ns with
  | nil => rfl
  | cons l ns ih =>
    rw [runLines_cons, step_noise d s l (h l (List.mem_cons_self l ns)) hst]
    exact ih fun x hx => h x (List.mem_cons_of_mem _ hx)

/-- A run of bare row-number lines leaves any state unchanged. -/
lemma runRowNums (d : Date) (s : PState) (ns : List String)
    (h : ∀ l ∈ ns, headerSkip l = false ∧ isRowNum l = true) :
    runLines d s ns = s := by
  induction ns with
  | nil => rfl
  | cons l ns ih =>
    have hl := h l (List.mem_cons_self l ns)
    rw [runLines_cons]
    rw [show processLine d s l = s by simp [processLine, hl.1, hl.2]]
    exact ih fun x hx => h x (List.mem_cons_of_mem _ hx)

/-- A name-like line without holiday marker at the initial record state
stores the name and advances to expecting a role. -/
lemma step_name (d : Date) (S : List ShiftInfo) (l : String)
    (hn : is_likely_name l = true) (hh : headerSkip l = false)
    (hrn : isRowNum l = false) (hhol : is_line_holiday l = false) :
    processLine d ⟨S, Rec.empty, Expect.name⟩ l =
      ⟨S, { Rec.empty with name := some l }, Expect.role⟩ := by
  simp [processLine, hh, hrn, dispatch, hn, hhol, holidayBlock, Rec.empty]

/-- A name-like line that itself contains the holiday marker, at the
initial record state: the name is stored with the holiday flag, and the
trailing holiday check immediately flushes the record (no times) and
resets the assembler. -/
lemma step_name_holiday (d : Date) (S : List ShiftInfo) (l : String)
    (hn : is_likely_name l = true) (hh : headerSkip l = false)
    (hrn : isRowNum l = false) (hhol : is_line_holiday l = true) :
    processLine d ⟨S, Rec.empty, Expect.name⟩ l =
      ⟨S ++ [⟨d, none, none, some l, none, none, true⟩], Rec.empty, Expect.name⟩ := by
  simp [processLine, hh, hrn, dispatch, hn, hhol, holidayBlock, Rec.empty, emit,
        mkShiftInfo, parseOptTime]

/-- A role-keyword line while expecting a role stores the role and
advances to expecting a start time. -/
lemma step_role (d : Date) (S : List ShiftInfo) (r : Rec) (l : String)
    (hro : is_role l = true) (hh : headerSkip l = false)
    (hrn : isRowNum l = false) (hhr : r.is_holiday = false) :
    processLine d ⟨S, r, Expect.role⟩ l =
      ⟨S, { r with role := some l }, Expect.start_time⟩ := by
  simp [processLine, hh, hrn, dispatch, hro, holidayBlock, hhr]

/-- A time line while expecting a start time stores the raw (space-free)
string and advances to expecting an end time. -/
lemma step_start (d : Date) (S : List ShiftInfo) (r : Rec) (l : String)
    (ht : is_time_str l = true) (hh : headerSkip l = false)
    (hrn : isRowNum l = false) (hhr : r.is_holiday = false) :
    processLine d ⟨S, r, Expect.start_time⟩ l =
      ⟨S, { r with start_time := some (stripSpaces l) }, Expect.end_time⟩ := by
  simp [processLine, hh, hrn, dispatch, ht, holidayBlock, hhr]

/-- A time line while expecting an end time completes the record: it is
validated and emitted, and the assembler resets. -/
lemma step_end (d : Date) (S : List ShiftInfo) (r : Rec) (l : String)
    (ost : Option Time) (t : Time)
    (ht : is_time_str l = true) (hh : headerSkip l = false)
    (hrn : isRowNum l = false)
    (hs : parseOptTime r.start_time = Except.ok ost)
    (he : parse_time_str (stripSpaces l) = Except.ok (some t)) :
    processLine d ⟨S, r, Expect.end_time⟩ l =
      ⟨S ++ [⟨d, ost, some t, r.name, r.role, none, r.is_holiday⟩],
       Rec.empty, Expect.name⟩ := by
  have hst' : parseOptTime ({ r with end_time := some (stripSpaces l) } : Rec).start_time =
      Except.ok ost := hs
  have het' : parseOptTime ({ r with end_time := some (stripSpaces l) } : Rec).end_time =
      Except.ok (some t) := by
    show parseOptTime (some (stripSpaces l)) = _
    simpa [parseOptTime] using he
  have hmk : mkShiftInfo d { r with end_time := some (stripSpaces l) } =
      some ⟨d, ost, some t, r.name, r.role, none, r.is_holiday⟩ := by
    simp only [mkShiftInfo, hst', het']
  simp [processLine, hh, hrn, dispatch, ht, holidayBlock, emit, hmk, Rec.empty]

/-- The leftover handling keeps nothing when the record is empty. -/
lemma finalize_empty (d : Date) (S : List ShiftInfo) (e : Expect) :
    finalize d ⟨S, Rec.empty, e⟩ = S := by
  simp [finalize, Rec.empty, Rec.nonempty]

/-! ## Round trip between joinLines and the line-splitting stage -/

lemma splitNl_no_newline {cs : List Char} (h : '\n' ∉ cs) : splitNl cs = [cs] := by
  induction cs with
  | nil => rfl
  | cons c cs ih =>
    have hc : ¬c = '\n' := fun hx => h (hx ▸ List.mem_cons_self c cs)
    have hcs : '\n' ∉ cs := fun hx => h (List.mem_cons_of_mem c hx)
    simp only [splitNl, if_neg hc, ih hcs]

lemma splitNl_append {cs rest : List Char} (h : '\n' ∉ cs) :
    splitNl (cs ++ '\n' :: rest) = cs :: splitNl rest := by
  induction cs with
  | nil => simp [splitNl]
  | cons c cs ih =>
    have hc : ¬c = '\n' := fun hx => h (hx ▸ List.mem_cons_self c cs)
    have hcs : '\n' ∉ cs := fun hx => h (List.mem_cons_of_mem c hx)
    simp only [List.cons_append, splitNl, if_neg hc]
    rw [show cs.append ('\n' :: rest) = cs ++ '\n' :: rest from rfl, ih hcs]

lemma toList_ne_nil {l : String} (h : l ≠ "") : l.toList ≠ [] := by
  intro hx
  exact h (mk_eq_iff.mpr hx.symm).symm

lemma toLines_joinLines {ls : List String} (h : ∀ l ∈ ls, CleanLine l) :
    toLines (joinLines ls) = ls := by
  induction ls with
  | nil => rfl
  | cons l ls ih =>
    obtain ⟨hne, hstrip, hnl⟩ := h l (List.mem_cons_self l ls)
    have hlne : l.toList ≠ [] := toList_ne_nil hne
    cases ls with
    | nil =>
      show toLines (String.mk (joinNl [l.toList])) = [l]
      unfold toLines
      rw [show (String.mk (joinNl [l.toList])).toList = l.toList from rfl,
          splitNl_no_newline hnl]
      simp only [List.map_cons, List.map_nil, hstrip]
      rw [List.filter_cons_of_pos (by simpa using hlne), List.filter_nil]
      simp only [List.map_cons, List.map_nil]
      rfl
    | cons l' ls' =>
      have ih' := ih fun x hx => h x (List.mem_cons_of_mem _ hx)
      show toLines (String.mk (joinNl (l.toList :: l'.toList :: List.map String.toList ls'))) =
        l :: l' :: ls'
      unfold toLines
      rw [show (String.mk (joinNl (l.toList :: l'.toList :: List.map String.toList ls'))).toList =
            l.toList ++ '\n' :: joinNl (l'.toList :: List.map String.toList ls') from rfl,
          splitNl_append hnl]
      simp only [List.map_cons, hstrip]
      rw [List.filter_cons_of_pos (by simpa using hlne)]
      simp only [List.map_cons]
      refine congrArg₂ List.cons rfl ?_
      exact ih'

lemma parse_joinLines {ls : List String} (h : ∀ l ∈ ls, CleanLine l) (year : Nat) :
    parse_shift_text_to_structured_data year (joinLines ls) = parseLines year ls := by
  unfold parse_shift_text_to_structured_data
  rw [toLines_joinLines h]

lemma parseLines_resolved {year : Nat} {ls : List String} {D : Date}
    (hres : resolveTableDate year ls = some D) :
    parseLines year ls = finalize D (runLines D ⟨[], Rec.empty, Expect.name⟩ ls) := by
  unfold parseLines
  rw [hres]

/-! ## C1: well-formed single-record inputs -/

/-- C1 counterexample.  A valid date-header line followed by a name-like
line, a role-keyword line, a start-time line and an end-time line in that
order, with one noise/header line (the column title 氏名) interspersed
between the start-time and end-time lines: the parser returns TWO records
(the first with no end time, the second with no name and no role), not
exactly one fully populated record, because the header line force-flushes
the in-progress record. -/
theorem c1_counterexample :
    parse_shift_text_to_structured_data 2026 "5月27日\n渡邊遼\nホール\n10:00\n氏名\n16:00" =
      [⟨⟨2026, 5, 27⟩, some ⟨10, 0⟩, none, some "渡邊遼", some "ホール", none, false⟩,
       ⟨⟨2026, 5, 27⟩, some ⟨16, 0⟩, none, none, none, none, false⟩] ∧
    (parse_shift_text_to_structured_data 2026 "5月27日\n渡邊遼\nホール\n10:00\n氏名\n16:00").length ≠ 1 ∧
    headerSkip "氏名" = true := by
  refine ⟨by decide, by decide, by decide⟩

/-- C1 amended.  For every input whose lines are a valid date-header line
followed by a name-like line (not itself a header/title or holiday line),
a role-keyword line (not itself a header/title line), a start-time line
and an end-time line whose time values validate, in that order,
interspersed with noise lines — header/title or row-number lines anywhere
EXCEPT between the start-time and the end-time line, where only bare
row-number lines may appear — the parser returns exactly one record with
all four of name, role, start_time, end_time set and is_holiday = false. -/
theorem c1_amended (year : Nat) (dl nm rl st en : String)
    (noise₀ noise₁ noise₂ nums noise₃ : List String) (D : Date) (t₁ t₂ : Time)
    (hclean : ∀ l ∈ dl :: (noise₀ ++ nm :: (noise₁ ++ rl :: (noise₂ ++ st ::
      (nums ++ en :: noise₃)))), CleanLine l)
    (hdate : dateLineValid year dl = some D)
    (hdl_n : is_likely_name dl = false) (hdl_r : is_role dl = false)
    (hdl_t : is_time_str dl = false)
    (hn0 : ∀ l ∈ noise₀, (headerSkip l || isRowNum l) = true)
    (hn1 : ∀ l ∈ noise₁, (headerSkip l || isRowNum l) = true)
    (hn2 : ∀ l ∈ noise₂, (headerSkip l || isRowNum l) = true)
    (hnums : ∀ l ∈ nums, headerSkip l = false ∧ isRowNum l = true)
    (hn3 : ∀ l ∈ noise₃, (headerSkip l || isRowNum l) = true)
    (hnm : is_likely_name nm = true) (hnm_h : headerSkip nm = false)
    (hnm_rn : isRowNum nm = false) (hnm_hol : is_line_holiday nm = false)
    (hrl : is_role rl = true) (hrl_h : headerSkip rl = false)
    (hrl_rn : isRowNum rl = false)
    (hst : is_time_str st = true) (hst_h : headerSkip st = false)
    (hst_rn : isRowNum st = false)
    (hst_p : parse_time_str (stripSpaces st) = Except.ok (some t₁))
    (hen : is_time_str en = true) (hen_h : headerSkip en = false)
    (hen_rn : isRowNum en = false)
    (hen_p : parse_time_str (stripSpaces en) = Except.ok (some t₂)) :
    parse_shift_text_to_structured_data year
        (joinLines (dl :: (noise₀ ++ nm :: (noise₁ ++ rl :: (noise₂ ++ st ::
          (nums ++ en :: noise₃)))))) =
      [⟨D, some t₁, some t₂, some nm, some rl, none, false⟩] := by
  rw [parse_joinLines hclean]
  have hres : resolveTableDate year (dl :: (noise₀ ++ nm :: (noise₁ ++ rl :: (noise₂ ++ st ::
      (nums ++ en :: noise₃))))) = some D := resolveTableDate_cons_some hdate _
  rw [parseLines_resolved hres]
  rw [runLines_cons, step_inert_init D [] dl hdl_n hdl_r hdl_t]
  rw [runLines_append, runNoise D _ noise₀ hn0 (by exact rfl)]
  rw [runLines_cons, step_name D [] nm hnm hnm_h hnm_rn hnm_hol]
  rw [runLines_append, runNoise D _ noise₁ hn1 (by exact rfl)]
  rw [runLines_cons, step_role D [] _ rl hrl hrl_h hrl_rn (by exact rfl)]
  rw [runLines_append, runNoise D _ noise₂ hn2 (by exact rfl)]
  rw [runLines_cons, step_start D [] _ st hst hst_h hst_rn (by exact rfl)]
  rw [runLines_append, runRowNums D _ nums hnums]
  rw [runLines_cons,
      step_end D [] _ en (some t₁) t₂ hen hen_h hen_rn
        (by simpa [parseOptTime] using hst_p) hen_p]
  rw [runNoise D _ noise₃ hn3 (by exact rfl)]
  rw [finalize_empty]
  simp
  all_goals exact rfl

/-- C1 amended witness: the concrete scenario of the claim, with the
three column-title lines as noise before the name line. -/
theorem c1_amended_witness :
    parse_shift_text_to_structured_data 2026
        (joinLines ("5月27日" :: (["氏名", "担当", "開始時間終了時間"] ++ "渡邊遼" ::
          ([] ++ "ホール" :: ([] ++ "10:00" :: ([] ++ "16:00" :: [])))))) =
      [⟨⟨2026, 5, 27⟩, some ⟨10, 0⟩, some ⟨16, 0⟩, some "渡邊遼", some "ホール", none, false⟩] :=
  c1_amended 2026 "5月27日" "渡邊遼" "ホール" "10:00" "16:00"
    ["氏名", "担当", "開始時間終了時間"] [] [] [] [] ⟨2026, 5, 27⟩ ⟨10, 0⟩ ⟨16, 0⟩
    (by decide) (by decide) (by decide) (by decide) (by decide) (by decide)
    (by decide) (by decide) (by decide) (by decide) (by decide) (by decide)
    (by decide) (by decide) (by decide) (by decide) (by decide) (by decide)
    (by decide) (by decide) rfl
    (by decide) (by decide) (by decide) rfl

/-! ## C5: holiday records -/

/-- C5 counterexample.  A name-like line immediately followed by a line
that matches the holiday marker (休み), then a new name with role and both
times: the parser emits NO holiday record at all — the holiday line is
itself name-like, so it silently replaces the in-progress record and is in
turn replaced by the next name; the output is exactly one non-holiday
record, not a holiday record followed by a full record. -/
theorem c5_counterexample :
    parse_shift_text_to_structured_data 2026 "5月27日\n田中太郎\n休み\n鈴木次郎\nホール\n10:00\n16:00" =
      [⟨⟨2026, 5, 27⟩, some ⟨10, 0⟩, some ⟨16, 0⟩, some "鈴木次郎", some "ホール", none, false⟩] ∧
    (parse_shift_text_to_structured_data 2026
        "5月27日\n田中太郎\n休み\n鈴木次郎\nホール\n10:00\n16:00").map ShiftInfo.is_holiday = [false] ∧
    is_likely_name "田中太郎" = true ∧ is_line_holiday "休み" = true := by
  refine ⟨by decide, by decide, by decide, by decide⟩

/-- C5 amended.  When the holiday marker occurs on the name-like line
itself (name and marker in one line), exactly one record is produced for
that line with is_holiday = true and no times — flushed immediately by
the trailing holiday check — and a following name with role and both
times yields a second, fully populated record. -/
theorem c5_amended (year : Nat) (dl nm1 nm2 rl st en : String) (D : Date) (t₁ t₂ : Time)
    (hclean : ∀ l ∈ [dl, nm1, nm2, rl, st, en], CleanLine l)
    (hdate : dateLineValid year dl = some D)
    (hdl_n : is_likely_name dl = false) (hdl_r : is_role dl = false)
    (hdl_t : is_time_str dl = false)
    (hnm1 : is_likely_name nm1 = true) (hnm1_h : headerSkip nm1 = false)
    (hnm1_rn : isRowNum nm1 = false) (hnm1_hol : is_line_holiday nm1 = true)
    (hnm2 : is_likely_name nm2 = true) (hnm2_h : headerSkip nm2 = false)
    (hnm2_rn : isRowNum nm2 = false) (hnm2_hol : is_line_holiday nm2 = false)
    (hrl : is_role rl = true) (hrl_h : headerSkip rl = false)
    (hrl_rn : isRowNum rl = false)
    (hst : is_time_str st = true) (hst_h : headerSkip st = false)
    (hst_rn : isRowNum st = false)
    (hst_p : parse_time_str (stripSpaces st) = Except.ok (some t₁))
    (hen : is_time_str en = true) (hen_h : headerSkip en = false)
    (hen_rn : isRowNum en = false)
    (hen_p : parse_time_str (stripSpaces en) = Except.ok (some t₂)) :
    parse_shift_text_to_structured_data year (joinLines [dl, nm1, nm2, rl, st, en]) =
      [⟨D, none, none, some nm1, none, none, true⟩,
       ⟨D, some t₁, some t₂, some nm2, some rl, none, false⟩] := by
  rw [parse_joinLines hclean]
  have hres : resolveTableDate year [dl, nm1, nm2, rl, st, en] = some D :=
    resolveTableDate_cons_some hdate _
  rw [parseLines_resolved hres]
  rw [show ([dl, nm1, nm2, rl, st, en] : List String) =
        dl :: nm1 :: nm2 :: rl :: st :: en :: [] from rfl]
  rw [runLines_cons, step_inert_init D [] dl hdl_n hdl_r hdl_t]
  rw [runLines_cons, step_name_holiday D [] nm1 hnm1 hnm1_h hnm1_rn hnm1_hol]
  rw [runLines_cons, step_name D _ nm2 hnm2 hnm2_h hnm2_rn hnm2_hol]
  rw [runLines_cons, step_role D _ _ rl hrl hrl_h hrl_rn (by exact rfl)]
  rw [runLines_cons, step_start D _ _ st hst hst_h hst_rn (by exact rfl)]
  rw [runLines_cons,
      step_end D _ _ en (some t₁) t₂ hen hen_h hen_rn
        (by simpa [parseOptTime] using hst_p) hen_p]
  rw [runLines_nil, finalize_empty]
  simp
  all_goals exact rfl

/-- C5 amended witness: the name line 田中太郎休み carries the holiday
marker; one holiday record and one full record are produced. -/
theorem c5_amended_witness :
    parse_shift_text_to_structured_data 2026
        (joinLines ["5月27日", "田中太郎休み", "鈴木次郎", "ホール", "10:00", "16:00"]) =
      [⟨⟨2026, 5, 27⟩, none, none, some "田中太郎休み", none, none, true⟩,
       ⟨⟨2026, 5, 27⟩, some ⟨10, 0⟩, some ⟨16, 0⟩, some "鈴木次郎", some "ホール", none, false⟩] :=
  c5_amended 2026 "5月27日" "田中太郎休み" "鈴木次郎" "ホール" "10:00" "16:00"
    ⟨2026, 5, 27⟩ ⟨10, 0⟩ ⟨16, 0⟩
    (by decide) (by decide) (by decide) (by decide) (by decide) (by decide)
    (by decide) (by decide) (by decide) (by decide) (by decide) (by decide)
    (by decide) (by decide) (by decide) (by decide) (by decide) (by decide)
    (by decide) rfl (by decide) (by decide) (by decide) rfl

end CaleShift
